import Mathlib

/-!
Verification development for the XILLEN security bot (`src/bot.py`).

The bot keeps, per user, a suspicion record in the dictionary
`self.suspicious_users : Dict[int, Dict]` whose entries hold `total_points`,
a list of `reasons` (each a dict with `reason`, `points`, `timestamp`), and
`recent_messages`, the sliding window of recent message timestamps used by
`is_spam`.  Security events accumulate in the in-memory list
`self.security_events`, truncated to the most recent 1000 by
`log_security_event`.

Timestamps are modelled as integers (whole seconds).  Python's
`(now - msg).seconds` is the seconds *component* of a `timedelta`, i.e. the
total difference in seconds reduced modulo 86400 (one day), with Python's
floor-division remainder semantics; for whole-second datetimes this is
exactly `(now - msg) % 86400` on `Int` with `Int.emod`.

Floating point appears only in `scan_guild_security`
(`online_members / total_members * 100 < 10`); it is modelled by the exact
rational comparison `online_members * 100 < 10 * total_members`.
-/

namespace XillenBot

/-- Security levels of `SecurityLevel(Enum)` in `bot.py`. -/
inductive SecurityLevel where
  | low
  | medium
  | high
  | critical
deriving DecidableEq, Repr

/-- The `SecurityEvent` dataclass of `bot.py`. -/
structure SecurityEvent where
  timestamp : Int
  user_id : Nat
  user_name : String
  event_type : String
  description : String
  level : SecurityLevel
  channel_id : Option Int := none
  message_id : Option Int := none
deriving DecidableEq, Repr

/-- One entry of the `reasons` list appended by `add_suspicion`:
the dict `{"reason": reason, "points": points, "timestamp": now}`. -/
structure ReasonEntry where
  reason : String
  points : Int
  timestamp : Int
deriving DecidableEq, Repr

/-- The per-user dict stored in `self.suspicious_users[user_id]`, created by
`add_suspicion` with `total_points = 0`, `reasons = []`,
`recent_messages = []`. -/
structure UserData where
  total_points : Int
  reasons : List ReasonEntry
  recent_messages : List Int
deriving DecidableEq, Repr

/-- The dictionary `self.suspicious_users`, as a partial map from user ids. -/
def SuspiciousUsers : Type := Nat → Option UserData

/-- The initial empty dictionary `self.suspicious_users = {}`. -/
def emptyUsers : SuspiciousUsers := fun _ => none

/-- Python dict assignment `self.suspicious_users[uid] = d`. -/
def setUser (m : SuspiciousUsers) (uid : Nat) (d : UserData) : SuspiciousUsers :=
  fun u => if u = uid then some d else m u

/-- Python `del self.suspicious_users[uid]`. -/
def delUser (m : SuspiciousUsers) (uid : Nat) : SuspiciousUsers :=
  fun u => if u = uid then none else m u

@[simp]
theorem setUser_self (m : SuspiciousUsers) (uid : Nat) (d : UserData) :
    setUser m uid d uid = some d := by
  simp [setUser]

@[simp]
theorem setUser_other (m : SuspiciousUsers) (uid u : Nat) (d : UserData) (h : u ≠ uid) :
    setUser m uid d u = m u := by
  simp [setUser, h]

@[simp]
theorem delUser_self (m : SuspiciousUsers) (uid : Nat) :
    delUser m uid uid = none := by
  simp [delUser]

@[simp]
theorem delUser_other (m : SuspiciousUsers) (uid u : Nat) (h : u ≠ uid) :
    delUser m uid u = m u := by
  simp [delUser, h]

/-- Python `timedelta.seconds` for a whole-second difference `diff`:
the seconds component, i.e. `diff` reduced modulo 86400 (floor remainder,
always in `[0, 86400)`). -/
def tdSeconds (diff : Int) : Int := diff % 86400

/-- The pruning list comprehension in `is_spam`:
`[msg for msg in recent_messages if (now - msg).seconds < 10]`. -/
def pruneWindow (now : Int) (msgs : List Int) : List Int :=
  msgs.filter (fun msg => tdSeconds (now - msg) < 10)

/-- Method `XillenSecurityBot.is_spam` (bot.py lines 166-183), with the
message replaced by its author id and arrival time.  Returns the boolean
result and the updated `suspicious_users` dictionary.  Faithful points:
a user with no record gets `False` and *no* mutation; the pruned window is
examined *before* the current timestamp is appended; on the `True` branch
nothing is written back. -/
def is_spam (m : SuspiciousUsers) (uid : Nat) (now : Int) : Bool × SuspiciousUsers :=
  match m uid with
  | none => (false, m)
  | some ud =>
    let recent := pruneWindow now ud.recent_messages
    if 5 ≤ recent.length then (true, m)
    else (false, setUser m uid { ud with recent_messages := recent ++ [now] })

/-- Method `XillenSecurityBot.add_suspicion` (bot.py lines 232-249), with the
config value `suspicious_threshold` passed explicitly.  The returned boolean
records whether `handle_high_suspicion` is invoked, i.e. whether
`total_points >= threshold` after the increment. -/
def add_suspicion (m : SuspiciousUsers) (uid : Nat) (reason : String) (points : Int)
    (now : Int) (threshold : Int) : SuspiciousUsers × Bool :=
  let ud : UserData := match m uid with
    | none => { total_points := 0, reasons := [], recent_messages := [] }
    | some d => d
  let ud' : UserData := { ud with
    total_points := ud.total_points + points,
    reasons := ud.reasons ++ [{ reason := reason, points := points, timestamp := now }] }
  (setUser m uid ud', decide (threshold ≤ ud'.total_points))

/-- Command `AdminCommands.clear_suspicion` (bot.py lines 524-531).  The
returned boolean records which reply was sent: `true` for "подозрения
очищены" (a record existed and was deleted), `false` for "нет подозрений". -/
def clear_suspicion (m : SuspiciousUsers) (uid : Nat) : SuspiciousUsers × Bool :=
  if (m uid).isSome then (delUser m uid, true) else (m, false)

/-- The stored total of a user, 0 when no record exists. -/
def totalOf (m : SuspiciousUsers) (uid : Nat) : Int :=
  match m uid with
  | some ud => ud.total_points
  | none => 0

/-- Sum of the `points` fields over a reason history. -/
def sumPoints (l : List ReasonEntry) : Int := (l.map (fun r => r.points)).sum

/-- The sum of the stored reason history of a user, 0 when no record exists. -/
def reasonsSumOf (m : SuspiciousUsers) (uid : Nat) : Int :=
  match m uid with
  | some ud => sumPoints ud.reasons
  | none => 0

/-- The stored rate window of a user, `[]` when no record exists. -/
def windowOf (m : SuspiciousUsers) (uid : Nat) : List Int :=
  match m uid with
  | some ud => ud.recent_messages
  | none => []

/-- The embed content built by `handle_high_suspicion` when `get_user`
resolves: the field "Очки подозрений" (the stored total) and the field
"Последние причины" (`[r["reason"] for r in user_data["reasons"][-5:]]`). -/
def high_suspicion_summary (ud : UserData) : Int × List String :=
  (ud.total_points, (ud.reasons.drop (ud.reasons.length - 5)).map (fun r => r.reason))

/-- Method `XillenSecurityBot.log_security_event` (bot.py lines 279-284):
append to `self.security_events`, then `await self.db.log_event(event)` — an
unguarded durable-sink write — then, if the length exceeds 1000, keep only
the last 1000 (`self.security_events[-1000:]`).  `sink_fails` models the
sink write raising: the event is by then already appended, the truncation is
skipped, and the exception propagates (returned flag `false`); on a
successful write the truncation runs (flag `true`). -/
def log_security_event (events : List SecurityEvent) (e : SecurityEvent)
    (sink_fails : Bool) : List SecurityEvent × Bool :=
  let events' := events ++ [e]
  if sink_fails then (events', false)
  else if 1000 < events'.length then (events'.drop (events'.length - 1000), true)
  else (events', true)

/-- Python `str.upper()` for the ASCII strings used as event types. -/
def strUpper (s : String) : String := String.mk (s.data.map Char.toUpper)

/-- Python slice `xs[-limit:]` for an arbitrary integer `limit`, as used in
`show_logs` (`recent_events = events[-limit:]`): for positive `limit` the
last `limit` elements; for `limit = 0` the slice index is `-0 = 0`, the whole
list; for negative `limit` the index is the positive number `-limit`, so the
first `-limit` elements are dropped. -/
def pySliceLast {α : Type} (xs : List α) (limit : Int) : List α :=
  if 0 < limit then xs.drop (xs.length - limit.toNat)
  else xs.drop (-limit).toNat

/-- The filtering step of `show_logs`:
`[e for e in events if e.event_type == event_type.upper()]`, applied only
when `event_type != "all"`. -/
def filterByType (events : List SecurityEvent) (event_type : String) :
    List SecurityEvent :=
  if event_type ≠ "all" then
    events.filter (fun e => e.event_type == strUpper event_type)
  else events

/-- Command `MonitoringCommands.show_logs` (bot.py lines 460-489), as the
list of displayed events: `none` models the "Логи не найдены" reply (the
filtered list is empty, nothing is displayed); `some r` models the embed
whose fields are the events of `r` in the order they are iterated
(`for event in recent_events`). -/
def show_logs (events : List SecurityEvent) (event_type : String) (limit : Int) :
    Option (List SecurityEvent) :=
  let lim := if 25 < limit then 25 else limit
  let evs := filterByType events event_type
  if evs.isEmpty then none
  else some (pySliceLast evs lim)

/-- Method `XillenSecurityBot.scan_guild_security` (bot.py lines 337-355),
as the decision whether the "Низкая активность" (LOW_ACTIVITY) alert is
emitted.  The float comparison `online_members / total_members * 100 < 10`
is modelled exactly as `online_members * 100 < 10 * total_members`. -/
def scan_guild_security (total_members online_members : Nat) : Bool :=
  if 0 < total_members then
    decide (online_members * 100 < 10 * total_members) && decide (100 < total_members)
  else false

/-- Whether `sub` occurs at the start of `l` (helper for Python `in`). -/
def startsWith : List Char → List Char → Bool
  | [], _ => true
  | _ :: _, [] => false
  | a :: as, b :: bs => a == b && startsWith as bs

/-- Python substring containment `sub in l` on character lists. -/
def containsSub (sub : List Char) : List Char → Bool
  | [] => sub.isEmpty
  | c :: rest => startsWith sub (c :: rest) || containsSub sub rest

/-- Python `str.lower()` on a character list (ASCII contents). -/
def lowerChars (l : List Char) : List Char := l.map Char.toLower

/-- The keyword list of `is_suspicious_content` (bot.py lines 158-164). -/
def suspicious_words : List (List Char) :=
  ["hack".data, "cheat".data, "exploit".data, "crack".data, "bypass".data,
   "ddos".data, "bot".data, "script".data, "auto".data, "macro".data]

/-- Method `XillenSecurityBot.is_suspicious_content`:
`any(word in content for word in suspicious_words)` over the lower-cased
message body. -/
def is_suspicious_content (content : List Char) : Bool :=
  suspicious_words.any (fun w => containsSub w content)

/-- Method `XillenSecurityBot.contains_invite`:
`"discord.gg/" in content or "discordapp.com/invite/" in content`. -/
def contains_invite (content : List Char) : Bool :=
  containsSub "discord.gg/".data content ||
    containsSub "discordapp.com/invite/".data content

/-- The environment of the message-processing path: which external I/O
operations raise, plus the config values read by the handlers.
`log_channel` models `config["log_channel_id"]` being set, `channel_found`
models `get_channel` returning a channel. -/
structure Env where
  log_channel : Bool
  channel_found : Bool
  alert_fails : Bool
  timeout_fails : Bool
  delete_fails : Bool
  db_message_fails : Bool
  auto_moderation : Bool
  threshold : Int
deriving DecidableEq, Repr

/-- The `await channel.send(embed=embed)` call: raises iff `alert_fails`. -/
def channel_send (env : Env) : Except Unit Unit :=
  if env.alert_fails then Except.error () else Except.ok ()

/-- Method `XillenSecurityBot.send_security_alert` (bot.py lines 269-277):
the whole lookup-and-send is wrapped in `try/except` whose handler only
logs, so the method itself never raises. -/
def send_security_alert (env : Env) : Except Unit Unit :=
  if env.log_channel then
    match (if env.channel_found then channel_send env else Except.ok ()) with
    | Except.error _ => Except.ok ()
    | Except.ok _ => Except.ok ()
  else Except.ok ()

/-- The `await message.author.timeout(...)` call: raises iff
`timeout_fails`. -/
def member_timeout (env : Env) : Except Unit Unit :=
  if env.timeout_fails then Except.error () else Except.ok ()

/-- The `await message.delete()` call: raises iff `delete_fails`. -/
def message_delete (env : Env) : Except Unit Unit :=
  if env.delete_fails then Except.error () else Except.ok ()

/-- The `await self.db.log_message(...)` call of `log_message_event`:
raises iff `db_message_fails` (no `try/except` around it in the source). -/
def db_log_message (env : Env) : Except Unit Unit :=
  if env.db_message_fails then Except.error () else Except.ok ()

/-- Method `XillenSecurityBot.handle_suspicious_message`: builds an embed
and calls `send_security_alert`; never raises. -/
def handle_suspicious_message (env : Env) : Except Unit Unit :=
  send_security_alert env

/-- Method `XillenSecurityBot.handle_spam` (bot.py lines 201-214): sends the
alert, then — with no `try/except` — times the author out when
`auto_moderation` is enabled. -/
def handle_spam (env : Env) : Except Unit Unit := do
  let _ ← send_security_alert env
  if env.auto_moderation then member_timeout env else pure ()

/-- Method `XillenSecurityBot.handle_invite` (bot.py lines 216-230): sends
the alert, then — with no `try/except` — deletes the message and times the
author out when `auto_moderation` is enabled. -/
def handle_invite (env : Env) : Except Unit Unit := do
  let _ ← send_security_alert env
  if env.auto_moderation then do
    let _ ← message_delete env
    member_timeout env
  else pure ()

/-- Final phase of `process_message`: `await self.log_message_event(message)`,
an unguarded durable-sink write. -/
def pmLog (env : Env) (m : SuspiciousUsers) : SuspiciousUsers × Bool :=
  match db_log_message env with
  | Except.error _ => (m, false)
  | Except.ok _ => (m, true)

/-- Invite phase of `process_message` (bot.py lines 152-154): on an invite
link, `handle_invite` runs *before* `add_suspicion(user_id, "invite_link", 3)`;
an exception in the handler aborts the rest of the method, skipping the
increment and the message-trace write. -/
def pmInvitePhase (env : Env) (m : SuspiciousUsers) (uid : Nat) (content : List Char)
    (now : Int) : SuspiciousUsers × Bool :=
  if contains_invite content then
    match handle_invite env with
    | Except.error _ => (m, false)
    | Except.ok _ => pmLog env (add_suspicion m uid "invite_link" 3 now env.threshold).1
  else pmLog env m

/-- Spam phase of `process_message` (bot.py lines 148-150): `is_spam` is
evaluated (mutating the window), then on detection `handle_spam` runs
*before* `add_suspicion(user_id, "spam", 2)`. -/
def pmSpamPhase (env : Env) (m : SuspiciousUsers) (uid : Nat) (content : List Char)
    (now : Int) : SuspiciousUsers × Bool :=
  let r := is_spam m uid now
  if r.1 then
    match handle_spam env with
    | Except.error _ => (r.2, false)
    | Except.ok _ =>
      pmInvitePhase env (add_suspicion r.2 uid "spam" 2 now env.threshold).1 uid content now
  else pmInvitePhase env r.2 uid content now

/-- Method `XillenSecurityBot.process_message` (bot.py lines 140-156), with
the message replaced by its author id, body, and arrival time.  Returns the
final `suspicious_users` dictionary (Python mutations performed before an
exception persist) and `true` iff the method ran to completion without an
exception. -/
def process_message (env : Env) (m : SuspiciousUsers) (uid : Nat) (content : List Char)
    (now : Int) : SuspiciousUsers × Bool :=
  let body := lowerChars content
  if is_suspicious_content body then
    match handle_suspicious_message env with
    | Except.error _ => (m, false)
    | Except.ok _ =>
      pmSpamPhase env (add_suspicion m uid "suspicious_content" 1 now env.threshold).1
        uid body now
  else pmSpamPhase env m uid body now

/-- One mutation of `self.suspicious_users` performed by the source: a spam
check, a suspicion increment, or an operator clear. -/
inductive LedgerStep : SuspiciousUsers → SuspiciousUsers → Prop where
  | spam (m : SuspiciousUsers) (uid : Nat) (now : Int) :
      LedgerStep m (is_spam m uid now).2
  | add (m : SuspiciousUsers) (uid : Nat) (reason : String)
      (points now threshold : Int) :
      LedgerStep m (add_suspicion m uid reason points now threshold).1
  | clear (m : SuspiciousUsers) (uid : Nat) :
      LedgerStep m (clear_suspicion m uid).1

/-- Dictionaries reachable from the empty initial `suspicious_users` by the
source's operations. -/
def Reachable (m : SuspiciousUsers) : Prop :=
  Relation.ReflTransGen LedgerStep emptyUsers m

/-- Invariant of §3 of the spec:
`totalPoints == sum(entry.points for entry in reasons)` for every record. -/
def LedgerInv (m : SuspiciousUsers) : Prop :=
  ∀ uid ud, m uid = some ud → ud.total_points = sumPoints ud.reasons

/-- One `(reason, points, timestamp)` argument triple for `add_suspicion`. -/
def AddCall : Type := String × Int × Int

/-- Fold a sequence of `add_suspicion` calls for one user. -/
def applyAdds (m : SuspiciousUsers) (uid : Nat) (threshold : Int) :
    List AddCall → SuspiciousUsers
  | [] => m
  | c :: cs => applyAdds (add_suspicion m uid c.1 c.2.1 c.2.2 threshold).1 uid threshold cs

/-- Sum of the `points` arguments of a sequence of calls. -/
def callsSum : List AddCall → Int
  | [] => 0
  | c :: cs => c.2.1 + callsSum cs

/-- Run `is_spam` for one user over a list of arrival times, collecting the
returned booleans. -/
def spamRun (m : SuspiciousUsers) (uid : Nat) : List Int → SuspiciousUsers × List Bool
  | [] => (m, [])
  | t :: ts =>
    let r := is_spam m uid t
    let rest := spamRun r.2 uid ts
    (rest.1, r.1 :: rest.2)

theorem is_spam_absent {m : SuspiciousUsers} {uid : Nat} {now : Int}
    (h : m uid = none) : is_spam m uid now = (false, m) := by
  simp [is_spam, h]

theorem is_spam_over {m : SuspiciousUsers} {uid : Nat} {now : Int} {ud : UserData}
    (h : m uid = some ud) (hp : 5 ≤ (pruneWindow now ud.recent_messages).length) :
    is_spam m uid now = (true, m) := by
  simp [is_spam, h, hp]

theorem is_spam_under {m : SuspiciousUsers} {uid : Nat} {now : Int} {ud : UserData}
    (h : m uid = some ud) (hp : (pruneWindow now ud.recent_messages).length < 5) :
    is_spam m uid now =
      (false, setUser m uid
        { ud with recent_messages := pruneWindow now ud.recent_messages ++ [now] }) := by
  simp only [is_spam, h]
  rw [if_neg (by omega)]

theorem pruneWindow_keep {now : Int} {l : List Int}
    (h : ∀ t ∈ l, 0 ≤ now - t ∧ now - t < 10) : pruneWindow now l = l := by
  apply List.filter_eq_self.mpr
  intro a ha
  have ha' := h a ha
  simp only [decide_eq_true_eq, tdSeconds]
  rw [Int.emod_eq_of_lt ha'.1 (by omega)]
  exact ha'.2

theorem pruneWindow_dropAll {now : Int} {l : List Int}
    (h : ∀ t ∈ l, 10 ≤ now - t ∧ now - t < 86400) : pruneWindow now l = [] := by
  apply List.filter_eq_nil_iff.mpr
  intro a ha
  have ha' := h a ha
  simp only [decide_eq_true_eq, tdSeconds, not_lt]
  rw [Int.emod_eq_of_lt (by omega) (by omega)]
  exact ha'.1

theorem add_suspicion_total (m : SuspiciousUsers) (uid : Nat) (r : String)
    (p t th : Int) :
    totalOf (add_suspicion m uid r p t th).1 uid = totalOf m uid + p := by
  cases h : m uid <;> simp [add_suspicion, totalOf, h]

theorem add_suspicion_reasonsSum (m : SuspiciousUsers) (uid : Nat) (r : String)
    (p t th : Int) :
    reasonsSumOf (add_suspicion m uid r p t th).1 uid = reasonsSumOf m uid + p := by
  cases h : m uid <;> simp [add_suspicion, reasonsSumOf, sumPoints, h]

theorem applyAdds_total (uid : Nat) (th : Int) (cs : List AddCall) :
    ∀ m : SuspiciousUsers,
      totalOf (applyAdds m uid th cs) uid = totalOf m uid + callsSum cs := by
  induction cs with
  | nil => intro m; simp [applyAdds, callsSum]
  | cons c cs ih =>
    intro m
    rw [applyAdds, ih, add_suspicion_total, callsSum]
    ring

theorem applyAdds_reasonsSum (uid : Nat) (th : Int) (cs : List AddCall) :
    ∀ m : SuspiciousUsers,
      reasonsSumOf (applyAdds m uid th cs) uid = reasonsSumOf m uid + callsSum cs := by
  induction cs with
  | nil => intro m; simp [applyAdds, callsSum]
  | cons c cs ih =>
    intro m
    rw [applyAdds, ih, add_suspicion_reasonsSum, callsSum]
    ring

theorem is_spam_snd_absent {m : SuspiciousUsers} {uid : Nat} {now : Int}
    (h : m uid = none) : (is_spam m uid now).2 = m := by
  rw [is_spam_absent h]

theorem is_spam_snd_over {m : SuspiciousUsers} {uid : Nat} {now : Int} {ud : UserData}
    (h : m uid = some ud) (hp : 5 ≤ (pruneWindow now ud.recent_messages).length) :
    (is_spam m uid now).2 = m := by
  rw [is_spam_over h hp]

theorem is_spam_snd_under {m : SuspiciousUsers} {uid : Nat} {now : Int} {ud : UserData}
    (h : m uid = some ud) (hp : (pruneWindow now ud.recent_messages).length < 5) :
    (is_spam m uid now).2 =
      setUser m uid
        { ud with recent_messages := pruneWindow now ud.recent_messages ++ [now] } := by
  rw [is_spam_under h hp]

theorem ledgerInv_step {m m' : SuspiciousUsers} (h : LedgerStep m m')
    (hm : LedgerInv m) : LedgerInv m' := by
  cases h with
  | spam uid now =>
    intro u ud hu
    cases h1 : m uid with
    | none =>
      rw [is_spam_snd_absent h1] at hu
      exact hm u ud hu
    | some d =>
      by_cases hp : 5 ≤ (pruneWindow now d.recent_messages).length
      · rw [is_spam_snd_over h1 hp] at hu
        exact hm u ud hu
      · rw [is_spam_snd_under h1 (by omega)] at hu
        by_cases he : u = uid
        · rw [he, setUser_self] at hu
          injection hu with h2
          subst h2
          exact hm uid d h1
        · rw [setUser_other _ _ _ _ he] at hu
          exact hm u ud hu
  | add uid reason points now threshold =>
    intro u ud hu
    have hfst : (add_suspicion m uid reason points now threshold).1 =
        setUser m uid
          { total_points := (match m uid with
              | none => ({ total_points := 0, reasons := [], recent_messages := [] } : UserData)
              | some d => d).total_points + points,
            reasons := (match m uid with
              | none => ({ total_points := 0, reasons := [], recent_messages := [] } : UserData)
              | some d => d).reasons ++
              [{ reason := reason, points := points, timestamp := now }],
            recent_messages := (match m uid with
              | none => ({ total_points := 0, reasons := [], recent_messages := [] } : UserData)
              | some d => d).recent_messages } := rfl
    rw [hfst] at hu
    by_cases he : u = uid
    · rw [he, setUser_self] at hu
      injection hu with h2
      subst h2
      cases h1 : m uid with
      | none => simp [h1, sumPoints]
      | some d => simp [h1, sumPoints, hm uid d h1]
    · rw [setUser_other _ _ _ _ he] at hu
      exact hm u ud hu
  | clear uid =>
    intro u ud hu
    by_cases hs : (m uid).isSome
    · have hfst : (clear_suspicion m uid).1 = delUser m uid := by
        simp [clear_suspicion, hs]
      rw [hfst] at hu
      by_cases he : u = uid
      · rw [he, delUser_self] at hu
        cases hu
      · rw [delUser_other _ _ _ he] at hu
        exact hm u ud hu
    · have hfst : (clear_suspicion m uid).1 = m := by
        simp [clear_suspicion, hs]
      rw [hfst] at hu
      exact hm u ud hu

theorem ledgerInv_reachable {m : SuspiciousUsers} (h : Reachable m) : LedgerInv m := by
  induction h with
  | refl => intro uid ud hu; cases hu
  | tail _ step ih => exact ledgerInv_step step ih

/-- C3: for every user and every finite sequence of `add_suspicion` calls for
that user, the stored `total_points` equals the sum of all `points` arguments
supplied and equals the sum of the `points` fields over the stored reason
history, and the invariant `total_points = sum of reason points` holds for
every record in every dictionary reachable from the initial state by the
source's operations. -/
theorem claimC3_ledger_totals :
    (∀ m, Reachable m → LedgerInv m) ∧
    (∀ (m : SuspiciousUsers) (uid : Nat) (th : Int) (cs : List AddCall),
      m uid = none →
      totalOf (applyAdds m uid th cs) uid = callsSum cs ∧
      reasonsSumOf (applyAdds m uid th cs) uid = callsSum cs) := by
  constructor
  · exact fun _ h => ledgerInv_reachable h
  · intro m uid th cs h
    have h1 : totalOf m uid = 0 := by simp [totalOf, h]
    have h2 : reasonsSumOf m uid = 0 := by simp [reasonsSumOf, h]
    rw [applyAdds_total, applyAdds_reasonsSum, h1, h2]
    omega

/-- Concrete ledger produced by two `add_suspicion` calls for user 7. -/
def mC3 : SuspiciousUsers :=
  applyAdds emptyUsers 7 3 [("spam", 2, 0), ("invite_link", 3, 1)]

theorem claimC3_witness : totalOf mC3 7 = 5 ∧ reasonsSumOf mC3 7 = 5 := by
  have h := claimC3_ledger_totals.2 emptyUsers 7 3 [("spam", 2, 0), ("invite_link", 3, 1)] rfl
  exact ⟨h.1.trans (by decide), h.2.trans (by decide)⟩

/-- C4: on every `add_suspicion` call, `handle_high_suspicion` fires exactly
when the running total after the increment reaches the configured threshold
(so with non-negative points it keeps firing on every call after the first
crossing — level-triggered), and the alert embed summarizes the new total
and the last 5 reasons, ending with the reason just added. -/
theorem claimC4_threshold_alert :
    ∀ (m : SuspiciousUsers) (uid : Nat) (reason : String) (points now threshold : Int),
      ((add_suspicion m uid reason points now threshold).2 = true ↔
        threshold ≤ totalOf (add_suspicion m uid reason points now threshold).1 uid) ∧
      (threshold ≤ totalOf m uid → 0 ≤ points →
        (add_suspicion m uid reason points now threshold).2 = true) ∧
      (∀ ud', (add_suspicion m uid reason points now threshold).1 uid = some ud' →
        (high_suspicion_summary ud').1 = totalOf m uid + points ∧
        (high_suspicion_summary ud').2.length ≤ 5 ∧
        (high_suspicion_summary ud').2.getLast? = some reason) := by
  intro m uid reason points now threshold
  refine ⟨?_, ?_, ?_⟩
  · cases h : m uid <;> simp [add_suspicion, totalOf, h]
  · intro h1 h2
    cases h : m uid <;>
      · simp only [totalOf, h] at h1
        simp [add_suspicion, h]
        omega
  · intro ud' hu
    cases h : m uid <;>
      · simp only [add_suspicion, h, setUser_self, Option.some.injEq] at hu
        subst hu
        refine ⟨by simp [high_suspicion_summary, totalOf, h], ?_, ?_⟩
        · simp only [high_suspicion_summary, List.length_map, List.length_drop]
          omega
        · simp only [high_suspicion_summary]
          rw [List.drop_append_of_le_length (by simp)]
          simp

/-- Ledger with user 1 already at the threshold (3 points, threshold 3). -/
def mC4 : SuspiciousUsers := (add_suspicion emptyUsers 1 "suspicious_content" 3 0 3).1

/-- The record stored for user 1 after a further "spam" call on `mC4`. -/
def udC4 : UserData :=
  { total_points := 5,
    reasons := [{ reason := "suspicious_content", points := 3, timestamp := 0 },
                { reason := "spam", points := 2, timestamp := 5 }],
    recent_messages := [] }

theorem claimC4_witness :
    (add_suspicion mC4 1 "spam" 2 5 3).2 = true ∧
    (high_suspicion_summary udC4).1 = totalOf mC4 1 + 2 ∧
    (high_suspicion_summary udC4).2.getLast? = some "spam" := by
  have h := claimC4_threshold_alert mC4 1 "spam" 2 5 3
  have h3 := h.2.2 udC4 (by decide)
  exact ⟨h.2.1 (by decide) (by decide), h3.1, h3.2.2⟩

/-- C8: the periodic health scan emits the LOW_ACTIVITY alert exactly when
`total_members > 100` and the online fraction is below 10 percent; in
particular 10 online of 150 triggers it and 2 online of 50 does not. -/
theorem claimC8_low_activity :
    (∀ total online : Nat,
      scan_guild_security total online = true ↔ (100 < total ∧ online * 10 < total)) ∧
    scan_guild_security 150 10 = true ∧
    scan_guild_security 50 2 = false := by
  refine ⟨?_, by decide, by decide⟩
  intro t o
  by_cases h : 0 < t <;> simp [scan_guild_security, h] <;> omega

/-- C9: `clear_suspicion` is idempotent and total — on a user with no record
it is a no-op reporting that none existed, on a user with a record it removes
the record entirely (a subsequent lookup is absent) and reports that it
existed, and it never touches other users. -/
theorem claimC9_clear_idempotent :
    ∀ (m : SuspiciousUsers) (uid : Nat),
      (m uid = none → clear_suspicion m uid = (m, false)) ∧
      (∀ ud, m uid = some ud →
        (clear_suspicion m uid).2 = true ∧ (clear_suspicion m uid).1 uid = none) ∧
      (clear_suspicion (clear_suspicion m uid).1 uid).1 = (clear_suspicion m uid).1 ∧
      (∀ u, u ≠ uid → (clear_suspicion m uid).1 u = m u) := by
  intro m uid
  refine ⟨?_, ?_, ?_, ?_⟩
  · intro h; simp [clear_suspicion, h]
  · intro ud h; simp [clear_suspicion, h]
  · cases h : m uid with
    | none => simp [clear_suspicion, h]
    | some d => simp [clear_suspicion, h]
  · intro u hu
    cases h : m uid <;> simp [clear_suspicion, h, delUser_other _ _ _ hu]

/-- Record used by the C9 witness. -/
def udC9 : UserData := { total_points := 1, reasons := [], recent_messages := [] }

/-- Ledger holding only user 2, used by the C9 witness. -/
def mC9 : SuspiciousUsers := setUser emptyUsers 2 udC9

theorem claimC9_witness :
    clear_suspicion emptyUsers 1 = (emptyUsers, false) ∧
    (clear_suspicion mC9 2).2 = true ∧
    (clear_suspicion mC9 2).1 2 = none := by
  have h := (claimC9_clear_idempotent mC9 2).2.1 udC9 (by decide)
  exact ⟨(claimC9_clear_idempotent emptyUsers 1).1 rfl, h.1, h.2⟩

/-- C10: the rate window lives inside the same per-user record as the
suspicion score, so `clear_suspicion` erases it too — after a clear the
user's record is absent and the next `is_spam` call finds no stored window
and returns `false` without creating one; likewise any user with no record
(no points ever added) has no stored window state. -/
theorem claimC10_clear_erases_window :
    ∀ (m : SuspiciousUsers) (uid : Nat) (now : Int),
      (clear_suspicion m uid).1 uid = none ∧
      is_spam (clear_suspicion m uid).1 uid now = (false, (clear_suspicion m uid).1) ∧
      (m uid = none → is_spam m uid now = (false, m)) := by
  intro m uid now
  have hnone : (clear_suspicion m uid).1 uid = none := by
    cases h : m uid <;> simp [clear_suspicion, h]
  exact ⟨hnone, is_spam_absent hnone, fun h => is_spam_absent h⟩

/-- Ledger holding only user 3, with a non-empty rate window, for the C10
witness. -/
def mC10 : SuspiciousUsers :=
  setUser emptyUsers 3 { total_points := 2, reasons := [], recent_messages := [5] }

theorem claimC10_witness :
    (clear_suspicion mC10 3).1 3 = none ∧
    is_spam (clear_suspicion mC10 3).1 3 6 = (false, (clear_suspicion mC10 3).1) ∧
    is_spam emptyUsers 4 0 = (false, emptyUsers) := by
  exact ⟨(claimC10_clear_erases_window mC10 3 6).1,
    (claimC10_clear_erases_window mC10 3 6).2.1,
    (claimC10_clear_erases_window emptyUsers 4 0).2.2 rfl⟩

/-- Record with a four-entry rate window, for the C1 counterexample. -/
def udC1 : UserData := { total_points := 0, reasons := [], recent_messages := [0, 0, 0, 0] }

/-- C1 counterexample: with user 1 holding a 4-entry fresh window, the call
appends `now` so the *resulting* window has 5 entries, yet `is_spam` returns
`false` (it tests the pruned window before appending) — contradicting
"returns true iff the resulting window size is at least 5"; and a userId
with no existing state gets no fresh window at all: the dictionary still has
no entry for user 2 after the call — contradicting "a userId with no
existing state gets a fresh empty window" and "mutates the per-user window
regardless of outcome". -/
theorem claimC1_counterexample :
    (is_spam (setUser emptyUsers 1 udC1) 1 0).1 = false ∧
    windowOf (is_spam (setUser emptyUsers 1 udC1) 1 0).2 1 = [0, 0, 0, 0, 0] ∧
    (is_spam emptyUsers 2 5).2 2 = none := by decide

/-- C1 (amended): for a user with no record, `is_spam` returns `false` and
mutates nothing (no fresh window is created).  For a user with a record, it
returns `true` iff the pruned window — entries whose timedelta
seconds-component is below 10 — already has at least 5 entries, in which
case the stored window is left untouched; otherwise it returns `false` and
stores the pruned window with `now` appended (at most 5 entries).  Other
users' state is never touched. -/
theorem claimC1_rate_window :
    ∀ (m : SuspiciousUsers) (uid : Nat) (now : Int),
      (m uid = none → is_spam m uid now = (false, m)) ∧
      (∀ ud, m uid = some ud →
        ((is_spam m uid now).1 = true ↔
          5 ≤ (pruneWindow now ud.recent_messages).length) ∧
        ((is_spam m uid now).1 = true → (is_spam m uid now).2 = m) ∧
        ((is_spam m uid now).1 = false →
          windowOf (is_spam m uid now).2 uid =
            pruneWindow now ud.recent_messages ++ [now] ∧
          (windowOf (is_spam m uid now).2 uid).length ≤ 5)) ∧
      (∀ u, u ≠ uid → (is_spam m uid now).2 u = m u) := by
  intro m uid now
  refine ⟨fun h => is_spam_absent h, ?_, ?_⟩
  · intro ud h
    by_cases hp : 5 ≤ (pruneWindow now ud.recent_messages).length
    · rw [is_spam_over h hp]
      exact ⟨by simp [hp], fun _ => rfl, by simp⟩
    · rw [is_spam_under h (by omega)]
      refine ⟨by simpa using hp, by simp, fun _ => ⟨?_, ?_⟩⟩
      · simp [windowOf]
      · simp only [windowOf, setUser_self, List.length_append, List.length_cons,
          List.length_nil]
        omega
  · intro u hu
    cases h1 : m uid with
    | none => rw [is_spam_snd_absent h1]
    | some d =>
      by_cases hp : 5 ≤ (pruneWindow now d.recent_messages).length
      · rw [is_spam_snd_over h1 hp]
      · rw [is_spam_snd_under h1 (by omega)]
        exact setUser_other _ _ _ _ hu

theorem claimC1_witness :
    is_spam emptyUsers 9 3 = (false, emptyUsers) ∧
    windowOf (is_spam (setUser emptyUsers 1 udC1) 1 0).2 1 =
      pruneWindow 0 udC1.recent_messages ++ [0] ∧
    (is_spam (setUser emptyUsers 1 udC1) 1 0).2 5 = setUser emptyUsers 1 udC1 5 := by
  refine ⟨(claimC1_rate_window emptyUsers 9 3).1 rfl, ?_, ?_⟩
  · exact (((claimC1_rate_window (setUser emptyUsers 1 udC1) 1 0).2.1 udC1
      (by decide)).2.2 (by decide)).1
  · exact (claimC1_rate_window (setUser emptyUsers 1 udC1) 1 0).2.2 5 (by decide)

theorem is_spam_build {m : SuspiciousUsers} {uid : Nat} {tp : Int}
    {rs : List ReasonEntry} {w : List Int} {now : Int}
    (hm : m uid = some ⟨tp, rs, w⟩)
    (hkeep : ∀ t ∈ w, 0 ≤ now - t ∧ now - t < 10)
    (hlen : w.length < 5) :
    is_spam m uid now = (false, setUser m uid ⟨tp, rs, w ++ [now]⟩) := by
  have hp : pruneWindow now w = w := pruneWindow_keep hkeep
  rw [is_spam_under hm (by simpa [hp] using hlen)]
  simp [hp]

theorem is_spam_burst5 {m : SuspiciousUsers} {uid : Nat} {tp : Int}
    {rs : List ReasonEntry} {w : List Int} {now : Int}
    (hm : m uid = some ⟨tp, rs, w⟩)
    (hkeep : ∀ t ∈ w, 0 ≤ now - t ∧ now - t < 10)
    (hlen : 5 ≤ w.length) :
    is_spam m uid now = (true, m) :=
  is_spam_over hm (by simpa [pruneWindow_keep hkeep] using hlen)

theorem is_spam_reset {m : SuspiciousUsers} {uid : Nat} {tp : Int}
    {rs : List ReasonEntry} {w : List Int} {now : Int}
    (hm : m uid = some ⟨tp, rs, w⟩)
    (hdrop : ∀ t ∈ w, 10 ≤ now - t ∧ now - t < 86400) :
    is_spam m uid now = (false, setUser m uid ⟨tp, rs, [now]⟩) := by
  have hp : pruneWindow now w = [] := pruneWindow_dropAll hdrop
  rw [is_spam_under hm (by simp [hp])]
  simp [hp]

/-- Ledger created by one suspicion increment for user 1 — the record now
exists with an empty rate window, as `add_suspicion` creates it. -/
def mC2 : SuspiciousUsers := (add_suspicion emptyUsers 1 "suspicious_content" 1 0 3).1

/-- C2 counterexample: user 1 has a (freshly created) record; five `is_spam`
calls at times 0,1,2,3,4 — all within one 10-second span — every one of them
returns `false`, the 5th included, contradicting "the 5th call returns
true". -/
theorem claimC2_counterexample :
    (spamRun mC2 1 [0, 1, 2, 3, 4]).2 = [false, false, false, false, false] := by decide

/-- C2 (amended): for a user whose record exists with an empty window, 5
calls within one 10-second span all return `false` (the 5th included); it is
the 6th call within the span that returns `true`.  And 4 calls within 10
seconds followed by a 5th call 11 seconds after the 4th: the 5th call
returns `false` and the stored window after it contains exactly the one new
entry. -/
theorem claimC2_rate_window_runs :
    ∀ (m : SuspiciousUsers) (uid : Nat) (tp : Int) (rs : List ReasonEntry)
      (t1 t2 t3 t4 t5 t6 s5 : Int),
      m uid = some ⟨tp, rs, []⟩ →
      t1 ≤ t2 → t2 ≤ t3 → t3 ≤ t4 → t4 ≤ t5 → t5 ≤ t6 → t6 - t1 < 10 →
      s5 = t4 + 11 →
      (spamRun m uid [t1, t2, t3, t4, t5]).2 =
        [false, false, false, false, false] ∧
      (spamRun m uid [t1, t2, t3, t4, t5, t6]).2 =
        [false, false, false, false, false, true] ∧
      (spamRun m uid [t1, t2, t3, t4, s5]).2 =
        [false, false, false, false, false] ∧
      windowOf (spamRun m uid [t1, t2, t3, t4, s5]).1 uid = [s5] := by
  intro m uid tp rs t1 t2 t3 t4 t5 t6 s5 hm h12 h23 h34 h45 h56 hspan hs5
  have h1 : is_spam m uid t1 = (false, setUser m uid ⟨tp, rs, [t1]⟩) := by
    simpa using is_spam_build hm (by simp) (by simp)
  have h2 : is_spam (setUser m uid ⟨tp, rs, [t1]⟩) uid t2 =
      (false, setUser (setUser m uid ⟨tp, rs, [t1]⟩) uid ⟨tp, rs, [t1, t2]⟩) := by
    simpa using is_spam_build (setUser_self m uid ⟨tp, rs, [t1]⟩)
      (by intro t ht; simp at ht; subst ht; omega) (by simp)
  have h3 : is_spam (setUser (setUser m uid ⟨tp, rs, [t1]⟩) uid ⟨tp, rs, [t1, t2]⟩)
      uid t3 =
      (false, setUser (setUser (setUser m uid ⟨tp, rs, [t1]⟩) uid ⟨tp, rs, [t1, t2]⟩)
        uid ⟨tp, rs, [t1, t2, t3]⟩) := by
    simpa using is_spam_build (setUser_self _ uid ⟨tp, rs, [t1, t2]⟩)
      (by intro t ht; simp at ht; rcases ht with rfl | rfl <;> omega) (by simp)
  have h4 : is_spam (setUser (setUser (setUser m uid ⟨tp, rs, [t1]⟩) uid
      ⟨tp, rs, [t1, t2]⟩) uid ⟨tp, rs, [t1, t2, t3]⟩) uid t4 =
      (false, setUser (setUser (setUser (setUser m uid ⟨tp, rs, [t1]⟩) uid
        ⟨tp, rs, [t1, t2]⟩) uid ⟨tp, rs, [t1, t2, t3]⟩) uid
        ⟨tp, rs, [t1, t2, t3, t4]⟩) := by
    simpa using is_spam_build (setUser_self _ uid ⟨tp, rs, [t1, t2, t3]⟩)
      (by intro t ht; simp at ht; rcases ht with rfl | rfl | rfl <;> omega) (by simp)
  have h5a : is_spam (setUser (setUser (setUser (setUser m uid ⟨tp, rs, [t1]⟩) uid
      ⟨tp, rs, [t1, t2]⟩) uid ⟨tp, rs, [t1, t2, t3]⟩) uid
      ⟨tp, rs, [t1, t2, t3, t4]⟩) uid t5 =
      (false, setUser (setUser (setUser (setUser (setUser m uid ⟨tp, rs, [t1]⟩) uid
        ⟨tp, rs, [t1, t2]⟩) uid ⟨tp, rs, [t1, t2, t3]⟩) uid
        ⟨tp, rs, [t1, t2, t3, t4]⟩) uid ⟨tp, rs, [t1, t2, t3, t4, t5]⟩) := by
    simpa using is_spam_build (setUser_self _ uid ⟨tp, rs, [t1, t2, t3, t4]⟩)
      (by intro t ht; simp at ht; rcases ht with rfl | rfl | rfl | rfl <;> omega)
      (by simp)
  have h6 : is_spam (setUser (setUser (setUser (setUser (setUser m uid
      ⟨tp, rs, [t1]⟩) uid ⟨tp, rs, [t1, t2]⟩) uid ⟨tp, rs, [t1, t2, t3]⟩) uid
      ⟨tp, rs, [t1, t2, t3, t4]⟩) uid ⟨tp, rs, [t1, t2, t3, t4, t5]⟩) uid t6 =
      (true, setUser (setUser (setUser (setUser (setUser m uid ⟨tp, rs, [t1]⟩) uid
        ⟨tp, rs, [t1, t2]⟩) uid ⟨tp, rs, [t1, t2, t3]⟩) uid
        ⟨tp, rs, [t1, t2, t3, t4]⟩) uid ⟨tp, rs, [t1, t2, t3, t4, t5]⟩) :=
    is_spam_burst5 (setUser_self _ uid ⟨tp, rs, [t1, t2, t3, t4, t5]⟩)
      (by intro t ht; simp at ht; rcases ht with rfl | rfl | rfl | rfl | rfl <;> omega)
      (by simp)
  have h5b : is_spam (setUser (setUser (setUser (setUser m uid ⟨tp, rs, [t1]⟩) uid
      ⟨tp, rs, [t1, t2]⟩) uid ⟨tp, rs, [t1, t2, t3]⟩) uid
      ⟨tp, rs, [t1, t2, t3, t4]⟩) uid s5 =
      (false, setUser (setUser (setUser (setUser (setUser m uid ⟨tp, rs, [t1]⟩) uid
        ⟨tp, rs, [t1, t2]⟩) uid ⟨tp, rs, [t1, t2, t3]⟩) uid
        ⟨tp, rs, [t1, t2, t3, t4]⟩) uid ⟨tp, rs, [s5]⟩) :=
    is_spam_reset (setUser_self _ uid ⟨tp, rs, [t1, t2, t3, t4]⟩)
      (by intro t ht; simp at ht; rcases ht with rfl | rfl | rfl | rfl <;> omega)
  refine ⟨?_, ?_, ?_, ?_⟩
  · simp [spamRun, h1, h2, h3, h4, h5a]
  · simp [spamRun, h1, h2, h3, h4, h5a, h6]
  · simp [spamRun, h1, h2, h3, h4, h5b]
  · simp [spamRun, h1, h2, h3, h4, h5b, windowOf]

theorem claimC2_witness :
    (spamRun mC2 1 [0, 1, 2, 3, 4]).2 = [false, false, false, false, false] ∧
    (spamRun mC2 1 [0, 1, 2, 3, 4, 5]).2 =
      [false, false, false, false, false, true] ∧
    (spamRun mC2 1 [0, 1, 2, 3, 14]).2 = [false, false, false, false, false] ∧
    windowOf (spamRun mC2 1 [0, 1, 2, 3, 14]).1 1 = [14] :=
  claimC2_rate_window_runs mC2 1 1 [⟨"suspicious_content", 1, 0⟩] 0 1 2 3 4 5 14
    (by decide) (by decide) (by decide) (by decide) (by decide) (by decide)
    (by decide) (by decide)

/-- Concrete event used by the C5 theorems and the C6 theorems. -/
def mkEvent (i : Nat) : SecurityEvent :=
  { timestamp := (i : Int), user_id := i, user_name := "u",
    event_type := "MEMBER_JOIN", description := "d", level := SecurityLevel.low }

/-- A concrete run of 1005 events. -/
def evs1005 : List SecurityEvent := (List.range 1005).map mkEvent

/-- One record operation of the event log: `log_security_event` applied to
one event together with its sink outcome, keeping the in-memory list. -/
def recordEvent (log : List SecurityEvent) (r : SecurityEvent × Bool) :
    List SecurityEvent :=
  (log_security_event log r.1 r.2).1

/-- Run a sequence of record operations against the in-memory list. -/
def logRun (log : List SecurityEvent) (rs : List (SecurityEvent × Bool)) :
    List SecurityEvent :=
  rs.foldl recordEvent log

theorem log_security_event_ok (log : List SecurityEvent) (e : SecurityEvent) :
    (log_security_event log e false).1 =
      (if 1000 < (log ++ [e]).length then
        (log ++ [e]).drop ((log ++ [e]).length - 1000)
      else log ++ [e]) := by
  simp only [log_security_event, Bool.false_eq_true, if_false]
  by_cases h : 1000 < (log ++ [e]).length
  · rw [if_pos h, if_pos h]
  · rw [if_neg h, if_neg h]

theorem logRun_ok_eq (es : List SecurityEvent) :
    logRun [] (es.map (fun e => (e, false))) = es.drop (es.length - 1000) := by
  induction es using List.reverseRecOn with
  | nil => rfl
  | append_singleton es e ih =>
    simp only [logRun] at ih ⊢
    rw [List.map_append, List.foldl_append, ih]
    simp only [List.map_cons, List.map_nil, List.foldl_cons, List.foldl_nil,
      recordEvent]
    rw [log_security_event_ok]
    by_cases h : 1000 ≤ es.length
    · have hlen : (es.drop (es.length - 1000)).length = 1000 := by
        rw [List.length_drop]
        omega
      have hlen2 : (es.drop (es.length - 1000) ++ [e]).length = 1001 := by
        simp [hlen]
      rw [if_pos (by omega), hlen2]
      rw [List.drop_append_of_le_length (by omega)]
      rw [List.drop_drop]
      have hlen3 : (es ++ [e]).length = es.length + 1 := by simp
      rw [hlen3]
      rw [List.drop_append_of_le_length (by omega)]
      have harith : es.length - 1000 + (1001 - 1000) = es.length + 1 - 1000 := by omega
      rw [harith]
    · have h0 : es.length - 1000 = 0 := by omega
      rw [h0, List.drop_zero]
      have hlen3 : (es ++ [e]).length = es.length + 1 := by simp
      rw [if_neg (by omega), hlen3]
      have h0' : es.length + 1 - 1000 = 0 := by omega
      rw [h0', List.drop_zero]

theorem logRun_allFail (rs : List (SecurityEvent × Bool)) :
    ∀ log, (∀ r ∈ rs, r.2 = true) → logRun log rs = log ++ rs.map Prod.fst := by
  induction rs with
  | nil =>
    intro log _
    simp [logRun]
  | cons r rs ih =>
    intro log hall
    have hr : r.2 = true := hall r (by simp)
    have hrec : recordEvent log r = log ++ [r.1] := by
      simp [recordEvent, log_security_event, hr]
    have ih' := ih (log ++ [r.1]) (fun x hx => hall x (List.mem_cons_of_mem r hx))
    simp only [logRun, List.foldl_cons] at ih' ⊢
    rw [hrec, ih', List.map_cons]
    simp

/-- A run of 1001 record operations whose sink writes all fail. -/
def failRun : List (SecurityEvent × Bool) :=
  (List.range 1001).map (fun i => (mkEvent i, true))

/-- C5 counterexample: the durable-sink write `await self.db.log_event(event)`
sits, unguarded, between the append and the truncation; when it raises, the
event is already appended but the truncation never runs.  Under a
persistently failing sink, 1001 record operations leave 1001 events in the
in-memory list — more than the claimed cap of 1000 (and growing without
bound), contradicting "retains at most 1000 entries after every record
operation". -/
theorem claimC5_counterexample :
    (logRun [] failRun).length = 1001 ∧ ¬ (logRun [] failRun).length ≤ 1000 := by
  have hall : ∀ r ∈ failRun, r.2 = true := by
    intro r hr
    simp only [failRun, List.mem_map] at hr
    obtain ⟨i, _, rfl⟩ := hr
    rfl
  rw [logRun_allFail failRun [] hall]
  simp [failRun]

/-- C5 (amended): a record operation whose sink write fails still appends
the event, but the truncation is skipped and the failure propagates, so the
in-memory list can exceed 1000 entries (without bound under persistent sink
failure).  When every sink write succeeds, the log retains exactly the
trailing 1000 events of the appended sequence in insertion order — at most
1000 entries, eviction dropping only the oldest — and after 1005 successful
records exactly the last 1000 (the sequence with its first 5 entries
dropped) are retained. -/
theorem claimC5_retention :
    (∀ (log : List SecurityEvent) (e : SecurityEvent),
      log_security_event log e true = (log ++ [e], false)) ∧
    (∀ es : List SecurityEvent,
      logRun [] (es.map (fun e => (e, false))) = es.drop (es.length - 1000) ∧
      (logRun [] (es.map (fun e => (e, false)))).length ≤ 1000) ∧
    (∀ es : List SecurityEvent, es.length = 1005 →
      logRun [] (es.map (fun e => (e, false))) = es.drop 5) := by
  refine ⟨?_, ?_, ?_⟩
  · intro log e
    simp [log_security_event]
  · intro es
    refine ⟨logRun_ok_eq es, ?_⟩
    rw [logRun_ok_eq, List.length_drop]
    omega
  · intro es h
    rw [logRun_ok_eq, h]

theorem claimC5_witness :
    evs1005.length = 1005 ∧
    logRun [] (evs1005.map (fun e => (e, false))) = evs1005.drop 5 ∧
    log_security_event [] (mkEvent 0) true = ([mkEvent 0], false) := by
  have h : evs1005.length = 1005 := by simp [evs1005]
  exact ⟨h, claimC5_retention.2.2 evs1005 h, claimC5_retention.1 [] (mkEvent 0)⟩

/-- C6 counterexample: `show_logs` does not clamp non-positive limits — with
26 retained events and `limit = 0` the Python slice `events[-0:]` is the
whole list, so 26 events are displayed, more than the claimed cap of 25; the
displayed order is insertion order, i.e. most-recent *last*, not
most-recent-first; and with filter "member_join" the returned event's type
is "MEMBER_JOIN" — the uppercased filter — not the filter itself. -/
theorem claimC6_counterexample :
    (show_logs ((List.range 26).map mkEvent) "all" 0).map List.length = some 26 ∧
    show_logs [mkEvent 0, mkEvent 1] "all" 10 = some [mkEvent 0, mkEvent 1] ∧
    show_logs [mkEvent 0, mkEvent 1] "all" 10 ≠ some [mkEvent 1, mkEvent 0] ∧
    show_logs [mkEvent 0] "member_join" 10 = some [mkEvent 0] ∧
    (mkEvent 0).event_type ≠ "member_join" := by decide

/-- C6 (amended): when `show_logs` displays a list of events, then — for a
*positive* limit only — at most 25 events are displayed (the limit is
clamped above at 25; limit 0 displays the whole filtered list and negative
limits drop leading events instead); the displayed list is a contiguous
suffix of the filtered event list, i.e. insertion order with the most recent
last; and for a filter other than "all" every displayed event's type equals
the *uppercased* filter. -/
theorem claimC6_logs_query :
    ∀ (events : List SecurityEvent) (event_type : String) (limit : Int)
      (r : List SecurityEvent),
      show_logs events event_type limit = some r →
      (0 < limit → r.length ≤ 25) ∧
      (∃ k, r = (filterByType events event_type).drop k) ∧
      (event_type ≠ "all" → ∀ e ∈ r, e.event_type = strUpper event_type) := by
  intro events et limit r h
  by_cases he : (filterByType events et).isEmpty = true
  · simp [show_logs, he] at h
  · have hfalse : (filterByType events et).isEmpty = false := by
      cases hx : (filterByType events et).isEmpty
      · rfl
      · exact absurd hx he
    simp only [show_logs, hfalse, Bool.false_eq_true, if_false, Option.some.injEq] at h
    subst h
    refine ⟨?_, ?_, ?_⟩
    · intro hpos
      by_cases hl : 25 < limit
      · simp only [pySliceLast, if_pos hl, if_pos (by omega : (0:Int) < 25)]
        rw [List.length_drop]
        omega
      · simp only [pySliceLast, if_neg hl, if_pos hpos]
        rw [List.length_drop]
        omega
    · unfold pySliceLast
      by_cases hl : 0 < (if 25 < limit then 25 else limit)
      · rw [if_pos hl]
        exact ⟨_, rfl⟩
      · rw [if_neg hl]
        exact ⟨_, rfl⟩
    · intro hall e hme
      have hmem : e ∈ filterByType events et := by
        revert hme
        unfold pySliceLast
        by_cases hl : 0 < (if 25 < limit then 25 else limit)
        · rw [if_pos hl]
          exact fun hme => List.mem_of_mem_drop hme
        · rw [if_neg hl]
          exact fun hme => List.mem_of_mem_drop hme
      rw [filterByType, if_pos hall] at hmem
      have := (List.mem_filter.mp hmem).2
      exact eq_of_beq this

theorem claimC6_witness :
    ([mkEvent 1] : List SecurityEvent).length ≤ 25 ∧
    (∃ k, [mkEvent 1] = (filterByType [mkEvent 0, mkEvent 1] "MEMBER_JOIN").drop k) ∧
    (∀ e ∈ ([mkEvent 1] : List SecurityEvent), e.event_type = strUpper "MEMBER_JOIN") := by
  have h := claimC6_logs_query [mkEvent 0, mkEvent 1] "MEMBER_JOIN" 1 [mkEvent 1]
    (by decide)
  exact ⟨h.1 (by decide), h.2.1, h.2.2 (by decide)⟩

theorem send_security_alert_ok (env : Env) :
    send_security_alert env = Except.ok () := by
  obtain ⟨lc, cf, af, tf, df, dmf, am, th⟩ := env
  cases lc <;> cases cf <;> cases af <;> rfl

theorem handle_spam_ok (env : Env) (h : env.timeout_fails = false) :
    handle_spam env = Except.ok () := by
  unfold handle_spam member_timeout
  rw [send_security_alert_ok, h]
  cases ha : env.auto_moderation <;> simp [ha, Except.instMonad, Except.bind, Except.pure]

theorem handle_invite_ok (env : Env) (ht : env.timeout_fails = false)
    (hd : env.delete_fails = false) :
    handle_invite env = Except.ok () := by
  unfold handle_invite member_timeout message_delete
  rw [send_security_alert_ok, ht, hd]
  cases ha : env.auto_moderation <;> simp [ha, Except.instMonad, Except.bind, Except.pure]

theorem db_log_message_ok (env : Env) (h : env.db_message_fails = false) :
    db_log_message env = Except.ok () := by
  unfold db_log_message
  rw [h]
  rfl

/-- Environment in which the spam-timeout moderation action raises, used by
the C7 counterexample: no log channel is configured (alerts silently drop),
auto-moderation is on, the timeout call fails. -/
def envC7 : Env :=
  { log_channel := false, channel_found := false, alert_fails := false,
    timeout_fails := true, delete_fails := false, db_message_fails := false,
    auto_moderation := true, threshold := 3 }

/-- Ledger in which user 1 has five fresh window entries, so the next
message is detected as spam. -/
def mC7 : SuspiciousUsers :=
  setUser emptyUsers 1 { total_points := 0, reasons := [], recent_messages := [0, 0, 0, 0, 0] }

/-- C7 counterexample: a message from user 1 triggers spam detection;
`handle_spam` runs before `add_suspicion(user, "spam", 2)` and its timeout
call is not wrapped in any `try/except`, so the failure propagates out of
`process_message` (completion flag `false`) and the 2-point "spam" increment
is skipped — the user's total is still 0 — contradicting "a failed
moderation action never rolls back or skips the corresponding point
increment" and "never surfaces to the triggering event path". -/
theorem claimC7_counterexample :
    (process_message envC7 mC7 1 "x".data 0).2 = false ∧
    totalOf (process_message envC7 mC7 1 "x".data 0).1 1 = 0 := by decide

/-- C7 (amended): failures of *alert delivery* are caught inside
`send_security_alert` and never surface: whenever the moderation actions
(timeout, delete) and the durable-sink write do not fail, `process_message`
runs to completion — whatever the alert-failure flag — and the resulting
ledger is exactly the one obtained with alert delivery healthy, so a failed
alert send never rolls back or skips a point increment.  (Moderation-action
and sink failures, by contrast, do propagate — see the counterexample.) -/
theorem claimC7_alert_isolation :
    ∀ (env : Env) (m : SuspiciousUsers) (uid : Nat) (content : List Char) (now : Int),
      env.timeout_fails = false → env.delete_fails = false →
      env.db_message_fails = false →
      (process_message env m uid content now).2 = true ∧
      (process_message env m uid content now).1 =
        (process_message { env with alert_fails := false } m uid content now).1 := by
  intro env m uid content now ht hd hdb
  have hth : ({ env with alert_fails := false } : Env).threshold = env.threshold := rfl
  have ham : ({ env with alert_fails := false } : Env).auto_moderation =
      env.auto_moderation := rfl
  have h1 := handle_spam_ok env ht
  have h2 := handle_spam_ok { env with alert_fails := false } ht
  have h3 := handle_invite_ok env ht hd
  have h4 := handle_invite_ok { env with alert_fails := false } ht hd
  have h5 := db_log_message_ok env hdb
  have h6 := db_log_message_ok { env with alert_fails := false } hdb
  constructor
  · simp only [process_message, pmSpamPhase, pmInvitePhase, pmLog,
      handle_suspicious_message, send_security_alert_ok, h1, h3, h5]
    split_ifs <;> rfl
  · simp only [process_message, pmSpamPhase, pmInvitePhase, pmLog,
      handle_suspicious_message, send_security_alert_ok, h1, h2, h3, h4, h5, h6,
      hth, ham]

/-- Environment for the C7 witness: the alert channel send raises, nothing
else fails. -/
def envW7 : Env :=
  { log_channel := true, channel_found := true, alert_fails := true,
    timeout_fails := false, delete_fails := false, db_message_fails := false,
    auto_moderation := true, threshold := 3 }

theorem claimC7_witness :
    (process_message envW7 emptyUsers 1 "hack".data 0).2 = true ∧
    (process_message envW7 emptyUsers 1 "hack".data 0).1 =
      (process_message { envW7 with alert_fails := false } emptyUsers 1
        "hack".data 0).1 :=
  claimC7_alert_isolation envW7 emptyUsers 1 "hack".data 0 rfl rfl rfl

end XillenBot
